import Mathlib

/-!
Shallow embedding of the One-Billion-Row-Challenge repository
(`src/using_duckdb.py`, `src/using_polars.py`, `src/create_measurements.py`).

Both query pipelines share the same logical shape: each input line
`station;temperature` is parsed, the temperature is scaled to a small
integer `t10 = round(temperature * 10)` and cast to a 16-bit integer, the
records are grouped by station into `(min_t10, max_t10, sum_t10, n)`
aggregate states, and a final row `(station, min, mean, max)` is derived
per distinct station.

Modelling conventions:
* integers stay exact (`ℤ`); the DOUBLE / Float32 arithmetic of the final
  row derivation is modelled as exact rational arithmetic (`ℚ`);
* the bit-level behaviour of the two scaled-value computations
  (DuckDB parses DOUBLE = binary64, Polars parses Float32 = binary32) is
  modelled separately and exactly with dyadic rationals (`Dy` below),
  rounding to 53 and 24 significand bits with round-to-nearest, ties to
  even, which is the IEEE-754 behaviour of both engines;
* the group order of an aggregation result is made deterministic by
  listing distinct stations in order of first appearance, which is also
  how a Polars `Categorical` cast under a fresh `StringCache` assigns
  physical category codes during a scan.
-/

namespace OBRC

/-- Per-key aggregate state, as produced by the `agg` CTE of
`using_duckdb.py` (lines 26-35) and the `group_by`/`agg` of
`using_polars.py` (lines 44-50): minimum, maximum and sum of the scaled
values `t10`, and the record count. -/
structure AggState where
  minT10 : ℤ
  maxT10 : ℤ
  sumT10 : ℤ
  n : ℤ
deriving DecidableEq

/-- Combine operation on two per-key aggregate states
(spec section 3, MergedState). -/
def combine (a b : AggState) : AggState :=
  ⟨min a.minT10 b.minT10, max a.maxT10 b.maxT10, a.sumT10 + b.sumT10, a.n + b.n⟩

/-- Combine lifted to optional states; `none` stands for "key absent from
this shard". -/
def oCombine : Option AggState → Option AggState → Option AggState
  | none, b => b
  | some a, none => some a
  | some a, some b => some (combine a b)

/-- Aggregate state of a single record with scaled value `v`. -/
def singleState (v : ℤ) : AggState := ⟨v, v, v, 1⟩

/-- Partial aggregation of a list of `(station, t10)` records, looked up
at one key: the per-key fold of the group-by. -/
def aggChunk (l : List (String × ℤ)) (k : String) : Option AggState :=
  l.foldr (fun r acc => if r.1 = k then oCombine (some (singleState r.2)) acc else acc) none

/-- Merge of any number of per-chunk partial aggregates at one key. -/
def mergeShards (shards : List (String → Option AggState)) (k : String) : Option AggState :=
  shards.foldr (fun s acc => oCombine (s k) acc) none

/-- Lexicographic comparison of two character lists by code point
(equivalently, for UTF-8 encoded text, by encoded bytes). -/
def lexLeB : List Char → List Char → Bool
  | [], _ => true
  | _ :: _, [] => false
  | a :: as, b :: bs =>
    if a.toNat < b.toNat then true
    else if b.toNat < a.toNat then false
    else lexLeB as bs

/-- Lexicographic-by-bytes order on station strings, the order of
DuckDB's `ORDER BY station` on a VARCHAR column (binary collation). -/
def strLe (a b : String) : Prop := lexLeB a.data b.data = true

instance : DecidableRel strLe := fun _ _ => inferInstanceAs (Decidable (_ = true))

/-- Round half away from zero of the rational `a / b` (with `b > 0`
intended), computed in integer arithmetic. -/
def rhaDiv (a : ℤ) (b : ℕ) : ℤ :=
  if 0 ≤ a then (2 * a + b) / (2 * (b : ℤ)) else -((2 * (-a) + b) / (2 * (b : ℤ)))

/-- Round half away from zero of a rational, the rounding used by
DuckDB's `ROUND` on DOUBLE and by the Rust `round` behind Polars'
`Expr.round`. -/
def rhaQ (q : ℚ) : ℤ :=
  if 0 ≤ q then ⌊q + 1 / 2⌋ else -⌊-q + 1 / 2⌋

/-- Round to nearest, ties to even, of a rational; the rounding of
Python's fixed-point float formatting `%.1f` (applied to `10 * value`). -/
def rneQ (q : ℚ) : ℤ :=
  if q - ⌊q⌋ < 1 / 2 then ⌊q⌋
  else if (1 : ℚ) / 2 < q - ⌊q⌋ then ⌊q⌋ + 1
  else if ⌊q⌋ % 2 = 0 then ⌊q⌋ else ⌊q⌋ + 1

/-- Spec-level scaled value of a measurement: `round(value * 10)`,
half away from zero (`CAST(ROUND(temperature * 10) AS SMALLINT)` in
`using_duckdb.py` line 16, `(measure * 10).round(0)` in
`using_polars.py` line 41, with the float arithmetic taken exactly). -/
def scaledOf (v : ℚ) : ℤ := rhaQ (v * 10)

/-- Range-checked cast to a 16-bit signed integer (`SMALLINT` /
`Int16`); out-of-range values are a conversion error in both engines. -/
def castI16 (z : ℤ) : Option ℤ :=
  if -32768 ≤ z ∧ z ≤ 32767 then some z else none

/-- Digit string to its numeric value. -/
def digitsVal (cs : List Char) : ℕ :=
  cs.foldl (fun a c => 10 * a + (c.toNat - 48)) 0

/-- Decimal parse of an unsigned temperature field
`<digits>` or `<digits>.<digits>`, returned as the exact pair
(numerator, number of fractional digits), so that the value is
`numerator / 10 ^ fracDigits`.  Any other shape is a parse failure,
mirroring the numeric cast of the CSV readers on the covered grammar. -/
def parseUnsig (cs : List Char) : Option (ℤ × ℕ) :=
  let ip := cs.takeWhile (· ≠ '.')
  match cs.drop ip.length with
  | [] =>
    if ip ≠ [] ∧ ip.all Char.isDigit then some ((digitsVal ip : ℤ), 0) else none
  | _ :: fp =>
    if ip ≠ [] ∧ fp ≠ [] ∧ ip.all Char.isDigit ∧ fp.all Char.isDigit then
      some (((digitsVal ip * 10 ^ fp.length + digitsVal fp : ℕ) : ℤ), fp.length)
    else none

/-- Decimal parse of the temperature field, with an optional sign.
Models the `temperature: DOUBLE` column of `read_csv` in
`using_duckdb.py` (lines 17-24) and the `measure: Float32` column of
`scan_csv` in `using_polars.py` (lines 24-34) on the decimal grammar of
the input contract. -/
def parseTemp (s : String) : Option (ℤ × ℕ) :=
  match s.data with
  | '-' :: rest => (parseUnsig rest).map (fun p => (-p.1, p.2))
  | '+' :: rest => parseUnsig rest
  | cs => parseUnsig cs

/-- Exact rational value of a parsed temperature. -/
def valQ (p : ℤ × ℕ) : ℚ := (p.1 : ℚ) / 10 ^ p.2

/-- Scaled value of a parsed temperature, in integer arithmetic:
`round(value * 10)` half away from zero. -/
def t10Exact (p : ℤ × ℕ) : ℤ := rhaDiv (p.1 * 10) (10 ^ p.2)

/-- Errors that abort a run: a line whose temperature field is not
numeric, or a scaled value that does not fit in 16 bits. -/
inductive RunError where
  | malformedRecord
  | conversionOutOfRange
deriving DecidableEq

/-- Parse and scale one `station;temperature` line. -/
def parseLine (l : String × String) : Except RunError (String × ℤ) :=
  match parseTemp l.2 with
  | none => .error .malformedRecord
  | some p =>
    match castI16 (t10Exact p) with
    | none => .error .conversionOutOfRange
    | some z => .ok (l.1, z)

/-- Parse and scale a whole input; the first failing line aborts the run
(fail-fast, no partial result), as both engines do for a cast error. -/
def parseAll : List (String × String) → Except RunError (List (String × ℤ))
  | [] => .ok []
  | l :: ls =>
    match parseLine l with
    | .error e => .error e
    | .ok r =>
      match parseAll ls with
      | .error e => .error e
      | .ok rs => .ok (r :: rs)

/-- Distinct stations in order of first appearance in the input. -/
def keysInOrder (l : List String) : List String :=
  l.foldl (fun acc k => if k ∈ acc then acc else acc ++ [k]) []

/-- Position of a key in the distinct-station list: the physical
category code a Polars `Categorical` cast assigns during the scan. -/
def idxOfStr (k : String) : List String → ℕ
  | [] => 0
  | s :: rest => if s = k then 0 else idxOfStr k rest + 1

/-- Result row: station plus the numeric columns in the column order of
the implementation's final `SELECT`. -/
abbrev Row := String × List ℚ

/-- Mean column of the DuckDB result:
`ROUND((sum_t10::DOUBLE / n) / 10.0, 1)` (`using_duckdb.py` line 39),
where `ROUND(x, 1)` rounds `x * 10` half away from zero and divides by
ten, with the DOUBLE arithmetic taken exactly. -/
def duckMean (s n : ℤ) : ℚ := ((rhaQ ((s : ℚ) / (n : ℚ) / 10 * 10) : ℤ) : ℚ) / 10

/-- Mean column of the Polars result: `sum_t10 / n / 10`
(`using_polars.py` line 54), with no rounding. -/
def polarsMean (s n : ℤ) : ℚ := (s : ℚ) / (n : ℚ) / 10

/-- DuckDB result row for one station: columns
`min_temperature, mean_temperature, max_temperature`
(`using_duckdb.py` lines 36-41). -/
def duckRowOf (recs : List (String × ℤ)) (k : String) : Row :=
  let st := (aggChunk recs k).getD ⟨0, 0, 0, 0⟩
  (k, [(st.minT10 : ℚ) / 10, duckMean st.sumT10 st.n, (st.maxT10 : ℚ) / 10])

/-- Polars result row for one station: columns `min, max, mean`
(`using_polars.py` lines 51-56). -/
def polarsRowOf (recs : List (String × ℤ)) (k : String) : Row :=
  let st := (aggChunk recs k).getD ⟨0, 0, 0, 0⟩
  (k, [(st.minT10 : ℚ) / 10, (st.maxT10 : ℚ) / 10, polarsMean st.sumT10 st.n])

/-- The DuckDB pipeline on an already-split list of
`station;temperature` fields: parse, scale, group, and derive rows,
ordered by `ORDER BY station` when `sortOutput` is set
(`using_duckdb.py` line 42), else in first-appearance order. -/
def runDuck (sortOutput : Bool) (lines : List (String × String)) :
    Except RunError (List Row) :=
  match parseAll lines with
  | .error e => .error e
  | .ok recs =>
    let keys := keysInOrder (recs.map Prod.fst)
    let ordered := if sortOutput then List.insertionSort strLe keys else keys
    .ok (ordered.map (duckRowOf recs))

/-- The Polars pipeline: same grouping, but `station` was cast to
`Categorical`, so `lf.sort("station")` (`using_polars.py` line 60)
sorts by the physical category codes — the order of first appearance —
not lexicographically. -/
def runPolars (sortOutput : Bool) (lines : List (String × String)) :
    Except RunError (List Row) :=
  match parseAll lines with
  | .error e => .error e
  | .ok recs =>
    let keys := keysInOrder (recs.map Prod.fst)
    let ordered :=
      if sortOutput then
        List.insertionSort (fun a b => idxOfStr a keys ≤ idxOfStr b keys) keys
      else keys
    .ok (ordered.map (polarsRowOf recs))

/-- Station column of a run result, `none` on a failed run. -/
def stationsOf (r : Except RunError (List Row)) : Option (List String) :=
  match r with
  | .error _ => none
  | .ok rows => some (rows.map Prod.fst)

/-- Column list of the final `SELECT` of `using_duckdb.py`
(lines 36-41). -/
def duckSelectCols : List String :=
  ["station", "min_temperature", "mean_temperature", "max_temperature"]

/-- Column list of the final `select` of `using_polars.py` (line 56). -/
def polarsSelectCols : List String :=
  ["station", "min", "max", "mean"]

/-- Keyword parameters of `create_duckdb_fast` (`using_duckdb.py`
line 6): the whole configuration surface of that implementation. -/
def duckdbConfigOptions : List String := ["paths_glob", "sort_output"]

/-- Keyword parameters of `create_polars_df_ultra` (`using_polars.py`
lines 11-14): the whole configuration surface of that implementation. -/
def polarsConfigOptions : List String := ["paths", "sort_output"]

/-- Source selection of `using_duckdb.py` (lines 9-10):
`src = paths_glob if files else "data/weather_stations.txt"`, where
`files` is the glob expansion of `paths_glob`. -/
def selectSrcDuck (pathsGlob : String) (globMatches : List String) : String :=
  if globMatches.isEmpty then "data/weather_stations.txt" else pathsGlob

/-- Path-list resolution of `using_polars.py` (lines 19-21): an explicit
argument is used as given; with no argument, the glob expansion of
`data/weather_stations-*.txt` is used if non-empty, else the single
default file. -/
def resolvePathsPolars (paths : Option (List String)) (found : List String) : List String :=
  match paths with
  | some ps => ps
  | none => if found.isEmpty then ["data/weather_stations.txt"] else found

/-! ### Bit-exact model of the two scaled-value computations

DuckDB parses the temperature as DOUBLE (binary64, 53 significand bits)
and computes `ROUND(temperature * 10)`; Polars parses it as Float32
(binary32, 24 significand bits) and computes `(measure * 10).round(0)`.  In the input's value range no overflow or
subnormal can occur, so an IEEE-754 float is exactly a dyadic rational
`m * 2 ^ e` and each operation is "compute exactly, then round to `p`
significand bits, to nearest, ties to even".  Everything below is
integer arithmetic, so it evaluates inside the kernel. -/

/-- Fuel-driven base-2 logarithm: `natLog2F fuel n` is the floor of
`log2 n` for `1 ≤ n < 2 ^ fuel`. -/
def natLog2F : ℕ → ℕ → ℕ
  | 0, _ => 0
  | f + 1, n => if n ≤ 1 then 0 else natLog2F f (n / 2) + 1

/-- Does `2 ^ g ≤ a / b` hold (for `a, b ≥ 1`)? -/
def le2pow (g : ℤ) (a b : ℕ) : Bool :=
  if 0 ≤ g then decide (b * 2 ^ g.toNat ≤ a) else decide (b ≤ a * 2 ^ (-g).toNat)

/-- Floor of `log2 (a / b)` for `a, b ≥ 1`. -/
def flog2 (a b : ℕ) : ℤ :=
  let g : ℤ := (natLog2F 200 a : ℤ) - (natLog2F 200 b : ℤ)
  if le2pow g a b then g else g - 1

/-- Round to nearest, ties to even, of `a / b` (for `b > 0`), in integer
arithmetic. -/
def rneDiv (a : ℤ) (b : ℕ) : ℤ :=
  let q := a / (b : ℤ)
  let r := a - q * b
  if 2 * r < (b : ℤ) then q
  else if (b : ℤ) < 2 * r then q + 1
  else if q % 2 = 0 then q else q + 1

/-- Dyadic rational `m * 2 ^ e`: the exact value of a finite binary
floating-point number. -/
structure Dy where
  m : ℤ
  e : ℤ
deriving DecidableEq

/-- Correctly rounded `p`-significand-bit float nearest to `num / den`
(`den > 0`): the result of parsing a decimal literal into binary64
(`p = 53`) or binary32 (`p = 24`), or of a float division. -/
def rndDiv (p : ℕ) (num : ℤ) (den : ℕ) : Dy :=
  if num = 0 then ⟨0, 0⟩
  else
    let s : ℤ := (p : ℤ) - 1 - flog2 num.natAbs den
    let mq : ℤ :=
      if 0 ≤ s then rneDiv (num * 2 ^ s.toNat) den
      else rneDiv num (den * 2 ^ (-s).toNat)
    ⟨mq, -s⟩

/-- A float times ten, rounded back to `p` significand bits: the
`temperature * 10` / `measure * 10` step. -/
def dyT10Round (p : ℕ) (d : Dy) : Dy :=
  if 0 ≤ d.e then rndDiv p (d.m * 10 * 2 ^ d.e.toNat) 1
  else rndDiv p (d.m * 10) (2 ^ (-d.e).toNat)

/-- Round half away from zero of a dyadic rational: `ROUND(x)` on
DOUBLE, `Expr.round(0)` on Float32. -/
def rhaDy (d : Dy) : ℤ :=
  if 0 ≤ d.e then d.m * 2 ^ d.e.toNat else rhaDiv d.m (2 ^ (-d.e).toNat)

/-- Bit-exact scaled value of the DuckDB pipeline on the well-formed
input `k / 10`: parse into binary64, multiply by ten in binary64, round
half away from zero, cast to SMALLINT. -/
def duckT10F (k : ℤ) : Option ℤ :=
  castI16 (rhaDy (dyT10Round 53 (rndDiv 53 k 10)))

/-- Bit-exact scaled value of the Polars pipeline on the well-formed
input `k / 10`: parse into binary32, multiply by ten in binary32, round
half away from zero, cast to Int16. -/
def polarsT10F (k : ℤ) : Option ℤ :=
  castI16 (rhaDy (dyT10Round 24 (rndDiv 24 k 10)))

/-! ### Model of the synthetic data generator (`create_measurements.py`) -/

/-- Fixed-point rendering of `k / 10` with exactly one fractional digit,
the shape `f-string` formatting with `:.1f` produces. -/
def renderTenths (k : ℤ) : String :=
  (if k < 0 then "-" else "") ++ toString (k.natAbs / 10) ++ "." ++ toString (k.natAbs % 10)

/-- One generated line `<name>;<value>` with value `k / 10`
(`create_measurements.py` line 69); the trailing newline is kept
implicit in the line-list representation. -/
def renderLine (name : String) (k : ℤ) : String :=
  name ++ ";" ++ renderTenths k

/-- Scaled value written for the raw draw `v`: `%.1f` formatting rounds
the value to one fractional digit (to nearest, ties to even on the
underlying binary value). -/
def formatT10 (v : ℚ) : ℤ := rneQ (v * 10)

/-- The `i`-th generated line, for a name-choice stream `pick` and a
draw stream `val` standing for `random.choices` / `random.uniform`. -/
def genLine (names : List String) (pick : ℕ → ℕ) (val : ℕ → ℚ) (i : ℕ) : String :=
  renderLine (names.getD (pick i % names.length) "") (formatT10 (val i))

/-- Line list written by `build_test_data` (`create_measurements.py`
lines 50-83): `rows / batchSize` full batches of `batchSize` lines, then
one remainder batch of `rows % batchSize` lines. -/
def buildTestData (names : List String) (rows batchSize : ℕ)
    (pick : ℕ → ℕ) (val : ℕ → ℚ) : List String :=
  let fullBatches := rows / batchSize
  let remainder := rows % batchSize
  (List.range fullBatches).flatMap
      (fun b => (List.range batchSize).map
        (fun j => genLine names pick val (b * batchSize + j)))
    ++ (List.range remainder).map
        (fun j => genLine names pick val (fullBatches * batchSize + j))

/-! ## Theorems -/

theorem combine_comm (a b : AggState) : combine a b = combine b a := by
  simp [combine, min_comm, max_comm, add_comm]

theorem combine_assoc (a b c : AggState) :
    combine (combine a b) c = combine a (combine b c) := by
  simp [combine, min_assoc, max_assoc, add_assoc]

theorem oCombine_assoc (a b c : Option AggState) :
    oCombine (oCombine a b) c = oCombine a (oCombine b c) := by
  cases a <;> cases b <;> cases c <;> simp [oCombine, combine_assoc]

theorem aggChunk_acc (l : List (String × ℤ)) (k : String) (acc : Option AggState) :
    l.foldr (fun r a => if r.1 = k then oCombine (some (singleState r.2)) a else a) acc
      = oCombine (aggChunk l k) acc := by
  induction l with
  | nil => cases acc <;> simp [aggChunk, oCombine]
  | cons r l ih =>
    by_cases h : r.1 = k <;> simp [aggChunk, h, ih, oCombine_assoc] at *

theorem aggChunk_append (l₁ l₂ : List (String × ℤ)) (k : String) :
    aggChunk (l₁ ++ l₂) k = oCombine (aggChunk l₁ k) (aggChunk l₂ k) := by
  have h := aggChunk_acc l₁ k (aggChunk l₂ k)
  simpa [aggChunk, List.foldr_append] using h

theorem mergeShards_map (chunks : List (List (String × ℤ))) (k : String) :
    mergeShards (chunks.map aggChunk) k = aggChunk chunks.flatten k := by
  induction chunks with
  | nil => simp [mergeShards, aggChunk]
  | cons c cs ih =>
    simp only [List.map_cons, List.flatten_cons, mergeShards, List.foldr_cons]
    rw [show (List.map aggChunk cs).foldr (fun s acc => oCombine (s k) acc) none
          = mergeShards (cs.map aggChunk) k from rfl, ih, aggChunk_append]

/-- C1: aggregating an input as one chunk and as any list of
record-aligned chunks merged with the combine operation yield the same
per-key state, and the combine operation
(min of mins, max of maxes, sum of sums, sum of counts) is commutative
and associative, so merge order and parallelism degree never affect the
result. -/
theorem claim1_chunked_aggregation_invariance :
    (∀ a b : AggState, combine a b = combine b a) ∧
    (∀ a b c : AggState, combine (combine a b) c = combine a (combine b c)) ∧
    (∀ (chunks : List (List (String × ℤ))) (k : String),
      mergeShards (chunks.map aggChunk) k = aggChunk chunks.flatten k) :=
  ⟨combine_comm, combine_assoc, mergeShards_map⟩

theorem rhaQ_intCast (k : ℤ) : rhaQ (k : ℚ) = k := by
  unfold rhaQ
  have h0 : (⌊(1:ℚ) / 2⌋ : ℤ) = 0 := by norm_num
  by_cases h : (0 : ℚ) ≤ (k : ℚ)
  · rw [if_pos h, Int.floor_int_add, h0]
    ring
  · rw [if_neg h]
    have : -(k : ℚ) = ((-k : ℤ) : ℚ) := by push_cast; ring
    rw [this, Int.floor_int_add, h0]
    ring

/-- C2 (amended): in both implementations `min` and `max` are
`min_t10 / 10` and `max_t10 / 10`, and the DuckDB mean
`ROUND((sum_t10 / n) / 10.0, 1)` equals `round(sum_t10 / n) / 10`
(round half away from zero), hence is always a one-decimal value.  The
Polars mean is the unrounded quotient (see the counterexample). -/
theorem claim2_duckdb_mean_rounded_one_decimal :
    (∀ s n : ℤ, duckMean s n = ((rhaQ ((s : ℚ) / (n : ℚ)) : ℤ) : ℚ) / 10 ∧
      ∃ j : ℤ, duckMean s n = (j : ℚ) / 10) ∧
    (∀ (recs : List (String × ℤ)) (k : String) (st : AggState),
      aggChunk recs k = some st →
      duckRowOf recs k =
        (k, [(st.minT10 : ℚ) / 10, ((rhaQ ((st.sumT10 : ℚ) / (st.n : ℚ)) : ℤ) : ℚ) / 10,
             (st.maxT10 : ℚ) / 10]) ∧
      polarsRowOf recs k =
        (k, [(st.minT10 : ℚ) / 10, (st.maxT10 : ℚ) / 10,
             (st.sumT10 : ℚ) / (st.n : ℚ) / 10])) := by
  have hmean : ∀ s n : ℤ, duckMean s n = ((rhaQ ((s : ℚ) / (n : ℚ)) : ℤ) : ℚ) / 10 := by
    intro s n
    unfold duckMean
    rw [div_mul_cancel₀ _ (by norm_num : (10 : ℚ) ≠ 0)]
  refine ⟨fun s n => ⟨hmean s n, ⟨rhaQ ((s : ℚ) / (n : ℚ)), hmean s n⟩⟩, ?_⟩
  intro recs k st h
  simp only [duckRowOf, polarsRowOf, polarsMean, h, Option.getD_some, hmean]
  exact ⟨trivial, trivial⟩

/-- C2 witness: the abstract part applied to the concrete input
`A;0.7` (one record with scaled value 7). -/
theorem claim2_witness :
    aggChunk [("A", 7)] "A" = some ⟨7, 7, 7, 1⟩ ∧
    duckRowOf [("A", 7)] "A" =
      ("A", [((7 : ℤ) : ℚ) / 10, ((rhaQ (((7 : ℤ) : ℚ) / ((1 : ℤ) : ℚ)) : ℤ) : ℚ) / 10,
             ((7 : ℤ) : ℚ) / 10]) :=
  ⟨by decide,
   ((claim2_duckdb_mean_rounded_one_decimal.2 [("A", 7)] "A" ⟨7, 7, 7, 1⟩ (by decide)).1)⟩

/-- C2 counterexample: for the merged state `(sum_t10 = 1, n = 2)`
(e.g. the two records `A;0.0`, `A;0.1`), the Polars mean column is
`1 / 20 = 0.05`, which differs from `round(1/2)/10 = 0.1` and is not a
one-decimal value at all: the Polars implementation does not round the
mean. -/
theorem claim2_counterexample :
    polarsMean 1 2 ≠ ((rhaQ (((1 : ℤ) : ℚ) / ((2 : ℤ) : ℚ)) : ℤ) : ℚ) / 10 ∧
    ¬ ∃ j : ℤ, polarsMean 1 2 = (j : ℚ) / 10 := by
  have hc : (((1 : ℤ) : ℚ) / ((2 : ℤ) : ℚ)) = 1 / 2 := by norm_num
  have hr : rhaQ ((1 : ℚ) / 2) = 1 := by
    unfold rhaQ
    rw [if_pos (by norm_num), show (1 : ℚ) / 2 + 1 / 2 = 1 by ring, Int.floor_one]
  have hv : polarsMean 1 2 = 1 / 20 := by
    unfold polarsMean
    norm_num
  constructor
  · rw [hv, hc, hr]
    norm_num
  · rintro ⟨j, hj⟩
    rw [hv] at hj
    have h2 : (2 * j : ℚ) = 1 := by
      field_simp at hj
      linarith
    have h3 : (2 * j : ℤ) = 1 := by exact_mod_cast h2
    omega

theorem lexLeB_total (a b : List Char) : lexLeB a b = true ∨ lexLeB b a = true := by
  induction a generalizing b with
  | nil => left; rfl
  | cons c cs ih =>
    cases b with
    | nil => right; rfl
    | cons d ds =>
      rcases Nat.lt_trichotomy c.toNat d.toNat with h | h | h
      · left; simp [lexLeB, h]
      · have hnd : ¬ c.toNat < d.toNat := by omega
        have hdn : ¬ d.toNat < c.toNat := by omega
        rcases ih ds with hle | hle
        · left; simp [lexLeB, hnd, hdn, hle]
        · right; simp [lexLeB, hnd, hdn, hle]
      · right; simp [lexLeB, h]

theorem lexLeB_trans (a b c : List Char) (hab : lexLeB a b = true)
    (hbc : lexLeB b c = true) : lexLeB a c = true := by
  induction a generalizing b c with
  | nil => rfl
  | cons x xs ih =>
    cases b with
    | nil => simp [lexLeB] at hab
    | cons y ys =>
      cases c with
      | nil => simp [lexLeB] at hbc
      | cons z zs =>
        simp only [lexLeB] at hab hbc ⊢
        by_cases hxy : x.toNat < y.toNat
        · by_cases hyz : y.toNat < z.toNat
          · simp [show x.toNat < z.toNat by omega]
          · simp only [if_neg hyz] at hbc
            by_cases hzy : z.toNat < y.toNat
            · simp [if_neg hyz, hzy] at hbc
            · simp [show x.toNat < z.toNat by omega]
        · simp only [if_neg hxy] at hab
          by_cases hyx : y.toNat < x.toNat
          · simp [hyx] at hab
          · simp only [if_neg hyx] at hab
            have hxyeq : x.toNat = y.toNat := by omega
            by_cases hyz : y.toNat < z.toNat
            · simp [hxyeq ▸ hyz]
            · simp only [if_neg hyz] at hbc
              by_cases hzy : z.toNat < y.toNat
              · simp [if_neg hyz, hzy] at hbc
              · have hxz : ¬ x.toNat < z.toNat := by omega
                have hzx : ¬ z.toNat < x.toNat := by omega
                simp only [if_neg hzy] at hbc
                simp only [if_neg hxz, if_neg hzx]
                exact ih ys zs hab hbc

/-- C3 (amended): with `sort_output = true` the DuckDB implementation
(`ORDER BY station`) returns its rows sorted lexicographically by
station bytes.  The Polars implementation sorts a `Categorical` column,
i.e. by physical category code — first-appearance order — and so is not
lexicographic (see the counterexample). -/
theorem claim3_sorted_output_lexicographic :
    ∀ (lines : List (String × String)) (rows : List Row),
      runDuck true lines = .ok rows → List.Sorted strLe (rows.map Prod.fst) := by
  intro lines rows h
  unfold runDuck at h
  cases hp : parseAll lines with
  | error e => rw [hp] at h; cases h
  | ok recs =>
    rw [hp] at h
    simp only [if_true] at h
    have hrows : rows
        = (List.insertionSort strLe (keysInOrder (recs.map Prod.fst))).map (duckRowOf recs) := by
      cases h; rfl
    have hfst : rows.map Prod.fst
        = List.insertionSort strLe (keysInOrder (recs.map Prod.fst)) := by
      rw [hrows, List.map_map]
      have : (Prod.fst ∘ duckRowOf recs) = id := by
        funext k
        rfl
      rw [this, List.map_id]
    rw [hfst]
    haveI : IsTotal String strLe := ⟨fun a b => lexLeB_total a.data b.data⟩
    haveI : IsTrans String strLe := ⟨fun a b c => lexLeB_trans a.data b.data c.data⟩
    exact List.sorted_insertionSort strLe _

/-- C3 witness: the sorted DuckDB run on the empty input. -/
theorem claim3_witness :
    runDuck true [] = .ok [] ∧ List.Sorted strLe (([] : List Row).map Prod.fst) :=
  ⟨rfl, claim3_sorted_output_lexicographic [] [] rfl⟩

/-- C3 counterexample: on the input `B;1.0`, `A;2.0` the Polars run with
`sort_output = true` returns stations in the order `B, A` — the order of
the physical `Categorical` codes (first appearance), not the
lexicographic order by key bytes. -/
theorem claim3_counterexample :
    stationsOf (runPolars true [("B", "1.0"), ("A", "2.0")]) = some ["B", "A"] ∧
    ¬ List.Sorted strLe ["B", "A"] := by
  constructor
  · decide
  · intro h
    have : strLe "B" "A" := List.rel_of_sorted_cons h "A" (by decide)
    exact absurd this (by decide)

/-- C4 (amended): the DuckDB result has the columns
`station, min_temperature, mean_temperature, max_temperature` — i.e.
key, min, mean, max — but the Polars result has the columns
`station, min, max, mean`: max and mean are swapped relative to the
claimed order. -/
theorem claim4_result_columns :
    duckSelectCols = ["station", "min_temperature", "mean_temperature", "max_temperature"] ∧
    polarsSelectCols = ["station", "min", "max", "mean"] ∧
    ∀ (recs : List (String × ℤ)) (k : String),
      (duckRowOf recs k).2.length + 1 = duckSelectCols.length ∧
      (polarsRowOf recs k).2.length + 1 = polarsSelectCols.length :=
  ⟨rfl, rfl, fun _ _ => ⟨rfl, rfl⟩⟩

/-- C4 counterexample: the Polars column list is not
`key, min, mean, max`. -/
theorem claim4_counterexample :
    polarsSelectCols ≠ ["station", "min", "mean", "max"] := by
  decide

theorem parseAll_error_of_mem {lines : List (String × String)} {l : String × String}
    (hm : l ∈ lines) (he : ∃ e, parseLine l = .error e) :
    ∃ e, parseAll lines = .error e := by
  induction lines with
  | nil => cases hm
  | cons x xs ih =>
    rcases List.mem_cons.mp hm with rfl | hmem
    · obtain ⟨e, he⟩ := he
      exact ⟨e, by simp [parseAll, he]⟩
    · cases hx : parseLine x with
      | error e => exact ⟨e, by simp [parseAll, hx]⟩
      | ok r =>
        obtain ⟨e, hpa⟩ := ih hmem
        exact ⟨e, by simp [parseAll, hx, hpa]⟩

theorem runs_fail_of_parseAll_error {lines : List (String × String)}
    (h : ∃ e, parseAll lines = .error e) (b : Bool) :
    (runDuck b lines).isOk = false ∧ (runPolars b lines).isOk = false := by
  obtain ⟨e, he⟩ := h
  constructor
  · unfold runDuck
    rw [he]
    rfl
  · unfold runPolars
    rw [he]
    rfl

/-- C5 (amended): a decoded value aborts the run exactly when its
scaled form `round(value * 10)` does not fit in a 16-bit integer
(`CAST ... AS SMALLINT` / `cast(Int16)`); values outside the declared
domain `[-99.9, 99.9]` whose scaled form still fits — such as `100.0` —
are aggregated normally (see the counterexample). -/
theorem claim5_scaled_cast_abort :
    ∀ (b : Bool) (lines : List (String × String)) (st raw : String) (p : ℤ × ℕ),
      (st, raw) ∈ lines → parseTemp raw = some p → castI16 (t10Exact p) = none →
      (runDuck b lines).isOk = false ∧ (runPolars b lines).isOk = false := by
  intro b lines st raw p hm hp hc
  refine runs_fail_of_parseAll_error (parseAll_error_of_mem hm ?_) b
  exact ⟨.conversionOutOfRange, by simp [parseLine, hp, hc]⟩

/-- C5 witness: the value `5000.0` scales to `50000`, which overflows
16 bits, so the run containing the line `A;5000.0` fails. -/
theorem claim5_witness :
    ("A", "5000.0") ∈ [("A", "5000.0")] ∧
    parseTemp "5000.0" = some (50000, 1) ∧
    castI16 (t10Exact (50000, 1)) = none ∧
    (runDuck false [("A", "5000.0")]).isOk = false ∧
    (runPolars false [("A", "5000.0")]).isOk = false := by
  refine ⟨by decide, by decide, by decide, ?_⟩
  exact claim5_scaled_cast_abort false [("A", "5000.0")] "A" "5000.0" (50000, 1)
    (by decide) (by decide) (by decide)

/-- C5 counterexample: the line `A;100.0` decodes to a value outside
the declared domain `[-99.9, 99.9]`, yet both runs succeed and produce
a row for `A` — the run does not fail as for a malformed record. -/
theorem claim5_counterexample :
    stationsOf (runDuck false [("A", "100.0")]) = some ["A"] ∧
    stationsOf (runPolars false [("A", "100.0")]) = some ["A"] := by
  constructor <;> decide

/-- C6 (amended): a line whose value field is not numeric always aborts
the run with `malformedRecord` and no partial table is produced; but no
skip policy exists — the only recognized configuration options are the
input path(s) and `sort_output` (see the counterexample). -/
theorem claim6_malformed_abort :
    (∀ (b : Bool) (lines : List (String × String)) (st raw : String),
      (st, raw) ∈ lines → parseTemp raw = none →
      (runDuck b lines).isOk = false ∧ (runPolars b lines).isOk = false) ∧
    runDuck false [("Z", "abc")] = .error .malformedRecord ∧
    runPolars false [("Z", "abc")] = .error .malformedRecord := by
  refine ⟨?_, rfl, rfl⟩
  intro b lines st raw hm hp
  refine runs_fail_of_parseAll_error (parseAll_error_of_mem hm ?_) b
  exact ⟨.malformedRecord, by simp [parseLine, hp]⟩

/-- C6 witness: the abort part applied to the concrete input `Z;abc`. -/
theorem claim6_witness :
    ("Z", "abc") ∈ [("Z", "abc")] ∧
    parseTemp "abc" = none ∧
    (runDuck true [("Z", "abc")]).isOk = false ∧
    (runPolars true [("Z", "abc")]).isOk = false := by
  refine ⟨by decide, by decide, ?_⟩
  exact claim6_malformed_abort.1 true [("Z", "abc")] "Z" "abc" (by decide) (by decide)

/-- C6 counterexample: there is no `malformed_line_policy` (and hence no
skip mode) among the recognized configuration options of either
implementation. -/
theorem claim6_counterexample :
    "malformed_line_policy" ∉ duckdbConfigOptions ∧
    "malformed_line_policy" ∉ polarsConfigOptions := by
  constructor <;> decide

/-- C7 (amended): when the input glob matches nothing, neither
implementation fails: DuckDB silently substitutes the default file
`data/weather_stations.txt`, and Polars (called without an explicit
path) does the same; with a non-empty glob expansion or an explicit
path the given input is used. -/
theorem claim7_missing_glob_fallback :
    (∀ g : String, selectSrcDuck g [] = "data/weather_stations.txt") ∧
    resolvePathsPolars none [] = ["data/weather_stations.txt"] ∧
    (∀ (g m : String) (ms : List String), selectSrcDuck g (m :: ms) = g) ∧
    (∀ (ps found : List String), resolvePathsPolars (some ps) found = ps) :=
  ⟨fun _ => rfl, rfl, fun _ _ _ => rfl, fun _ _ => rfl⟩

/-- C7 counterexample: a glob that matches no file is silently replaced
by the default file — it is processed instead of being reported as
`SourceNotFound` before any processing. -/
theorem claim7_counterexample :
    selectSrcDuck "data/nonexistent-*.txt" [] = "data/weather_stations.txt" ∧
    resolvePathsPolars none [] ≠ [] := ⟨rfl, by decide⟩

theorem rhaDiv_eq_rhaQ (a : ℤ) (b : ℕ) (hb : 0 < b) :
    rhaDiv a b = rhaQ ((a : ℚ) / (b : ℚ)) := by
  have hbQ : (0 : ℚ) < (b : ℚ) := by exact_mod_cast hb
  by_cases ha : 0 ≤ a
  · have hq : (0 : ℚ) ≤ (a : ℚ) / (b : ℚ) :=
      div_nonneg (by exact_mod_cast ha) hbQ.le
    unfold rhaDiv rhaQ
    rw [if_pos ha, if_pos hq]
    have key : (a : ℚ) / (b : ℚ) + 1 / 2 = ((2 * a + b : ℤ) : ℚ) / ((2 * b : ℕ) : ℚ) := by
      push_cast
      field_simp
      ring
    rw [key, Rat.floor_intCast_div_natCast]
    push_cast
    ring_nf
  · have hq : (a : ℚ) / (b : ℚ) < 0 :=
      div_neg_of_neg_of_pos (by exact_mod_cast not_le.mp ha) hbQ
    unfold rhaDiv rhaQ
    rw [if_neg ha, if_neg (not_le.mpr hq)]
    have key : -((a : ℚ) / (b : ℚ)) + 1 / 2 = ((2 * -a + b : ℤ) : ℚ) / ((2 * b : ℕ) : ℚ) := by
      push_cast
      field_simp
      ring
    rw [key, Rat.floor_intCast_div_natCast]
    push_cast
    ring_nf

theorem t10Exact_eq_scaledOf (p : ℤ × ℕ) : t10Exact p = scaledOf (valQ p) := by
  unfold t10Exact scaledOf valQ
  rw [rhaDiv_eq_rhaQ _ _ (pow_pos (by norm_num) p.2)]
  congr 1
  push_cast
  ring

theorem sum_bounds (l : List ℤ) (h : ∀ x ∈ l, -999 ≤ x ∧ x ≤ 999) :
    -((l.length : ℤ) * 999) ≤ l.sum ∧ l.sum ≤ (l.length : ℤ) * 999 := by
  induction l with
  | nil => simp
  | cons x xs ih =>
    have hx := h x (List.mem_cons_self x xs)
    have hxs := ih (fun y hy => h y (List.mem_cons_of_mem x hy))
    simp only [List.sum_cons, List.length_cons]
    push_cast
    constructor <;> linarith [hxs.1, hxs.2, hx.1, hx.2]

/-- C8: every well-formed value `k / 10` (one fractional digit,
`|k| ≤ 999`) scales to exactly `k`, which lies in `[-999, 999]` and
passes the 16-bit cast; and the 64-bit per-key sum of scaled values
stays within `999 * 2 ^ 40`, far below `2 ^ 63`, for record counts up
to `2 ^ 40`. -/
theorem claim8_scaled_range_and_sum_no_overflow :
    (∀ k : ℤ, -999 ≤ k → k ≤ 999 →
      scaledOf ((k : ℚ) / 10) = k ∧ castI16 (scaledOf ((k : ℚ) / 10)) = some k) ∧
    (∀ l : List ℤ, (∀ x ∈ l, -999 ≤ x ∧ x ≤ 999) → (l.length : ℤ) ≤ 2 ^ 40 →
      -(999 * 2 ^ 40) ≤ l.sum ∧ l.sum ≤ 999 * 2 ^ 40 ∧
      -(2 ^ 63) < l.sum ∧ l.sum < 2 ^ 63) := by
  constructor
  · intro k h1 h2
    have hs : scaledOf ((k : ℚ) / 10) = k := by
      unfold scaledOf
      rw [div_mul_cancel₀ _ (by norm_num : (10 : ℚ) ≠ 0), rhaQ_intCast]
    refine ⟨hs, ?_⟩
    rw [hs]
    unfold castI16
    rw [if_pos ⟨by omega, by omega⟩]
  · intro l hl hlen
    have hb := sum_bounds l hl
    have hmul : (l.length : ℤ) * 999 ≤ 999 * 2 ^ 40 := by nlinarith
    have hbig : (999 : ℤ) * 2 ^ 40 < 2 ^ 63 := by norm_num
    exact ⟨by linarith [hb.1], by linarith [hb.2], by linarith [hb.1], by linarith [hb.2]⟩

/-- C8 witness: the boundary value `99.9` (scaled 999) and the
two-record list `[999, -999]`. -/
theorem claim8_witness :
    ((-999 : ℤ) ≤ 999 ∧ (999 : ℤ) ≤ 999) ∧
    scaledOf (((999 : ℤ) : ℚ) / 10) = 999 ∧
    castI16 (scaledOf (((999 : ℤ) : ℚ) / 10)) = some 999 ∧
    (∀ x ∈ [(999 : ℤ), -999], -999 ≤ x ∧ x ≤ 999) ∧
    ([(999 : ℤ), -999].length : ℤ) ≤ 2 ^ 40 ∧
    [(999 : ℤ), -999].sum < 2 ^ 63 :=
  ⟨⟨by decide, by decide⟩,
   (claim8_scaled_range_and_sum_no_overflow.1 999 (by decide) (by decide)).1,
   (claim8_scaled_range_and_sum_no_overflow.1 999 (by decide) (by decide)).2,
   by decide, by decide,
   (claim8_scaled_range_and_sum_no_overflow.2 [999, -999] (by decide) (by decide)).2.2.2⟩

set_option maxRecDepth 40000 in
set_option maxHeartbeats 4000000 in
theorem c9decide0 : ∀ k ∈ Finset.Icc (-999 : ℤ) (-750),
    duckT10F k = some k ∧ polarsT10F k = some k := by decide

set_option maxRecDepth 40000 in
set_option maxHeartbeats 4000000 in
theorem c9decide1 : ∀ k ∈ Finset.Icc (-749 : ℤ) (-500),
    duckT10F k = some k ∧ polarsT10F k = some k := by decide

set_option maxRecDepth 40000 in
set_option maxHeartbeats 4000000 in
theorem c9decide2 : ∀ k ∈ Finset.Icc (-499 : ℤ) (-250),
    duckT10F k = some k ∧ polarsT10F k = some k := by decide

set_option maxRecDepth 40000 in
set_option maxHeartbeats 4000000 in
theorem c9decide3 : ∀ k ∈ Finset.Icc (-249 : ℤ) (-1),
    duckT10F k = some k ∧ polarsT10F k = some k := by decide

set_option maxRecDepth 40000 in
set_option maxHeartbeats 4000000 in
theorem c9decide4 : ∀ k ∈ Finset.Icc (0 : ℤ) 249,
    duckT10F k = some k ∧ polarsT10F k = some k := by decide

set_option maxRecDepth 40000 in
set_option maxHeartbeats 4000000 in
theorem c9decide5 : ∀ k ∈ Finset.Icc (250 : ℤ) 499,
    duckT10F k = some k ∧ polarsT10F k = some k := by decide

set_option maxRecDepth 40000 in
set_option maxHeartbeats 4000000 in
theorem c9decide6 : ∀ k ∈ Finset.Icc (500 : ℤ) 749,
    duckT10F k = some k ∧ polarsT10F k = some k := by decide

set_option maxRecDepth 40000 in
set_option maxHeartbeats 4000000 in
theorem c9decide7 : ∀ k ∈ Finset.Icc (750 : ℤ) 999,
    duckT10F k = some k ∧ polarsT10F k = some k := by decide

theorem t10F_wellFormed (k : ℤ) (h1 : -999 ≤ k) (h2 : k ≤ 999) :
    duckT10F k = some k ∧ polarsT10F k = some k := by
  rcases (show (-999 ≤ k ∧ k ≤ -750) ∨ (-749 ≤ k ∧ k ≤ -500) ∨ (-499 ≤ k ∧ k ≤ -250) ∨
      (-249 ≤ k ∧ k ≤ -1) ∨ (0 ≤ k ∧ k ≤ 249) ∨ (250 ≤ k ∧ k ≤ 499) ∨
      (500 ≤ k ∧ k ≤ 749) ∨ (750 ≤ k ∧ k ≤ 999) from by omega) with
    ⟨ha, hb⟩ | ⟨ha, hb⟩ | ⟨ha, hb⟩ | ⟨ha, hb⟩ | ⟨ha, hb⟩ | ⟨ha, hb⟩ | ⟨ha, hb⟩ | ⟨ha, hb⟩
  · exact c9decide0 k (Finset.mem_Icc.mpr ⟨ha, hb⟩)
  · exact c9decide1 k (Finset.mem_Icc.mpr ⟨ha, hb⟩)
  · exact c9decide2 k (Finset.mem_Icc.mpr ⟨ha, hb⟩)
  · exact c9decide3 k (Finset.mem_Icc.mpr ⟨ha, hb⟩)
  · exact c9decide4 k (Finset.mem_Icc.mpr ⟨ha, hb⟩)
  · exact c9decide5 k (Finset.mem_Icc.mpr ⟨ha, hb⟩)
  · exact c9decide6 k (Finset.mem_Icc.mpr ⟨ha, hb⟩)
  · exact c9decide7 k (Finset.mem_Icc.mpr ⟨ha, hb⟩)

/-- C9: for every well-formed scaled input `k / 10` with
`-999 ≤ k ≤ 999`, the DuckDB scaled value — binary64 parse, binary64
multiply by ten, round half away from zero, SMALLINT cast — equals the
Polars scaled value — binary32 parse, binary32 multiply by ten, round,
Int16 cast — and both equal `k` exactly; hence on any well-formed input
the two implementations see identical records and identical per-key
aggregate states. -/
theorem claim9_duckdb_polars_scaled_equivalence :
    (∀ k : ℤ, -999 ≤ k → k ≤ 999 → duckT10F k = polarsT10F k ∧ duckT10F k = some k) ∧
    (∀ recs : List (String × ℤ), (∀ r ∈ recs, -999 ≤ r.2 ∧ r.2 ≤ 999) →
      recs.map (fun r => (r.1, duckT10F r.2)) = recs.map (fun r => (r.1, polarsT10F r.2)) ∧
      ∀ k, aggChunk (recs.map (fun r => (r.1, (duckT10F r.2).getD 0))) k
         = aggChunk (recs.map (fun r => (r.1, (polarsT10F r.2).getD 0))) k) := by
  constructor
  · intro k h1 h2
    obtain ⟨hd, hp⟩ := t10F_wellFormed k h1 h2
    exact ⟨hd.trans hp.symm, hd⟩
  · intro recs h
    have hpt : ∀ r ∈ recs, duckT10F r.2 = some r.2 ∧ polarsT10F r.2 = some r.2 :=
      fun r hr => t10F_wellFormed r.2 (h r hr).1 (h r hr).2
    constructor
    · exact List.map_congr_left fun r hr => by rw [(hpt r hr).1, (hpt r hr).2]
    · intro k
      have hd : recs.map (fun r => (r.1, (duckT10F r.2).getD 0)) = recs :=
        (List.map_congr_left fun r hr => by rw [(hpt r hr).1]; rfl).trans (List.map_id recs)
      have hp : recs.map (fun r => (r.1, (polarsT10F r.2).getD 0)) = recs :=
        (List.map_congr_left fun r hr => by rw [(hpt r hr).2]; rfl).trans (List.map_id recs)
      rw [hd, hp]

/-- C9 witness: the value `3.1` (scaled 31) and the one-record input
`A;0.5`. -/
theorem claim9_witness :
    ((-999 : ℤ) ≤ 31 ∧ (31 : ℤ) ≤ 999) ∧
    duckT10F 31 = polarsT10F 31 ∧ duckT10F 31 = some 31 ∧
    (∀ r ∈ [("A", (5 : ℤ))], -999 ≤ r.2 ∧ r.2 ≤ 999) ∧
    [("A", (5 : ℤ))].map (fun r => (r.1, duckT10F r.2))
      = [("A", (5 : ℤ))].map (fun r => (r.1, polarsT10F r.2)) :=
  ⟨⟨by decide, by decide⟩,
   (claim9_duckdb_polars_scaled_equivalence.1 31 (by decide) (by decide)).1,
   (claim9_duckdb_polars_scaled_equivalence.1 31 (by decide) (by decide)).2,
   by decide,
   (claim9_duckdb_polars_scaled_equivalence.2 [("A", 5)] (by decide)).1⟩

theorem rneQ_le {q : ℚ} {n : ℤ} (h : q ≤ (n : ℚ)) : rneQ q ≤ n := by
  have hfl : ⌊q⌋ ≤ n := by
    simpa using Int.floor_le_floor h
  have hnext : (1 : ℚ) / 2 ≤ q - ⌊q⌋ → ⌊q⌋ + 1 ≤ n := by
    intro hhalf
    by_contra hcon
    have heq : ⌊q⌋ = n := by omega
    have hcast : ((⌊q⌋ : ℤ) : ℚ) = (n : ℚ) := by rw [heq]
    rw [hcast] at hhalf
    linarith
  unfold rneQ
  by_cases h1 : q - ⌊q⌋ < 1 / 2
  · rw [if_pos h1]
    exact hfl
  · rw [if_neg h1]
    by_cases h2 : (1 : ℚ) / 2 < q - ⌊q⌋
    · rw [if_pos h2]
      exact hnext (le_of_lt h2)
    · rw [if_neg h2]
      by_cases h3 : ⌊q⌋ % 2 = 0
      · rw [if_pos h3]
        exact hfl
      · rw [if_neg h3]
        exact hnext (not_lt.mp h1)

theorem rneQ_ge {q : ℚ} {n : ℤ} (h : (n : ℚ) ≤ q) : n ≤ rneQ q := by
  have hfl : n ≤ ⌊q⌋ := Int.le_floor.mpr h
  unfold rneQ
  by_cases h1 : q - ⌊q⌋ < 1 / 2
  · rw [if_pos h1]
    exact hfl
  · rw [if_neg h1]
    by_cases h2 : (1 : ℚ) / 2 < q - ⌊q⌋
    · rw [if_pos h2]
      omega
    · rw [if_neg h2]
      by_cases h3 : ⌊q⌋ % 2 = 0
      · rw [if_pos h3]
        exact hfl
      · rw [if_neg h3]
        omega

theorem buildTestData_length (names : List String) (rows batchSize : ℕ)
    (pick : ℕ → ℕ) (val : ℕ → ℚ) :
    (buildTestData names rows batchSize pick val).length
      = rows / batchSize * batchSize + rows % batchSize ∧
    (buildTestData names rows batchSize pick val).length = rows := by
  have hkey : (buildTestData names rows batchSize pick val).length
      = rows / batchSize * batchSize + rows % batchSize := by
    unfold buildTestData
    rw [List.length_append, List.length_flatMap, List.length_map, List.length_range]
    have hconst : List.map (List.length ∘ fun b =>
        (List.range batchSize).map (fun j => genLine names pick val (b * batchSize + j)))
        (List.range (rows / batchSize))
        = List.map (fun _ => batchSize) (List.range (rows / batchSize)) :=
      List.map_congr_left fun b _ => by simp
    rw [hconst, List.map_const', List.sum_replicate, List.length_range, smul_eq_mul]
  refine ⟨hkey, hkey.trans ?_⟩
  rw [Nat.mul_comm]
  exact Nat.div_add_mod rows batchSize

theorem genLine_spec (names : List String) (pick : ℕ → ℕ) (val : ℕ → ℚ) (i : ℕ)
    (hn : names ≠ []) (hval : -(999 : ℚ) / 10 ≤ val i ∧ val i ≤ 999 / 10) :
    ∃ name k, name ∈ names ∧ -999 ≤ k ∧ k ≤ 999 ∧
      genLine names pick val i = renderLine name k := by
  have hlen : 0 < names.length := List.length_pos.mpr hn
  have hidx : pick i % names.length < names.length := Nat.mod_lt _ hlen
  refine ⟨names.getD (pick i % names.length) "", formatT10 (val i), ?_, ?_, ?_, rfl⟩
  · rw [List.getD_eq_getElem names "" hidx]
    exact List.getElem_mem hidx
  · unfold formatT10
    have h10 : ((-999 : ℤ) : ℚ) ≤ val i * 10 := by
      push_cast
      linarith [hval.1]
    exact rneQ_ge h10
  · unfold formatT10
    have h10 : val i * 10 ≤ ((999 : ℤ) : ℚ) := by
      push_cast
      linarith [hval.2]
    exact rneQ_le h10

/-- C10: for every `rows`, `batchSize ≥ 1` and non-empty name list,
the generator writes exactly `rows` lines
(`full_batches * batch_size + remainder = rows`), and — when the draw
stream stays in the default range `[-99.9, 99.9]` — every line is
`name;value` with a name from the list and a one-fractional-digit value
`k / 10`, `|k| ≤ 999`: the generated file satisfies the engines' input
contract. -/
theorem claim10_generator_contract :
    ∀ (names : List String) (rows batchSize : ℕ) (pick : ℕ → ℕ) (val : ℕ → ℚ),
      names ≠ [] → 1 ≤ batchSize →
      (∀ i, -(999 : ℚ) / 10 ≤ val i ∧ val i ≤ 999 / 10) →
      (buildTestData names rows batchSize pick val).length
          = rows / batchSize * batchSize + rows % batchSize ∧
      (buildTestData names rows batchSize pick val).length = rows ∧
      ∀ line ∈ buildTestData names rows batchSize pick val,
        ∃ name k, name ∈ names ∧ -999 ≤ k ∧ k ≤ 999 ∧ line = renderLine name k := by
  intro names rows batchSize pick val hn _hb hval
  obtain ⟨hlen1, hlen2⟩ := buildTestData_length names rows batchSize pick val
  refine ⟨hlen1, hlen2, ?_⟩
  intro line hl
  unfold buildTestData at hl
  rcases List.mem_append.mp hl with hmem | hmem
  · rcases List.mem_flatMap.mp hmem with ⟨b, _, hmem2⟩
    rcases List.mem_map.mp hmem2 with ⟨j, _, rfl⟩
    exact genLine_spec names pick val _ hn (hval _)
  · rcases List.mem_map.mp hmem with ⟨j, _, rfl⟩
    exact genLine_spec names pick val _ hn (hval _)

/-- C10 witness: one name, three rows, batches of two, and the constant
zero draw. -/
theorem claim10_witness :
    (["A"] : List String) ≠ [] ∧ 1 ≤ 2 ∧
    (buildTestData ["A"] 3 2 (fun _ => 0) (fun _ => 0)).length = 3 :=
  ⟨by decide, by decide,
   (claim10_generator_contract ["A"] 3 2 (fun _ => 0) (fun _ => 0) (by decide) (by decide)
     (fun _ => ⟨by norm_num, by norm_num⟩)).2.1⟩

end OBRC
